import Mathlib

/-!
Verification development for the WSGI-to-ASGI adapter in asgiref/wsgi.py.

The adapter wraps a blocking WSGI application so that it can serve an ASGI
http connection.  We give a shallow embedding of the per-connection instance
(class WsgiToAsgiInstance): the start_response callable, the environ builder
build_environ, and the output loop run_wsgi_app.

Modelling conventions:
  - Python byte strings appearing as message bodies are List Nat (Bytes).
  - Header names and values arrive as bytes and are decoded with latin1,
    which is a bijection between bytes and the first 256 code points; we
    model the decoded form directly as Lean strings.
  - Python exceptions are the constructors of PyErr; a function that can
    raise returns Except PyErr.
  - Char.toUpper / Char.toLower only fold ASCII letters, matching Python
    on the ASCII header names and status strings all claims are about.
-/

/-- Byte strings (Python bytes) as lists of byte values. -/
abbrev Bytes := List Nat

/-- The exc_info triple passed to start_response.  The code only reads
items 1 (the exception object) and 2 (the traceback); we carry both as
opaque labels. -/
structure ExcInfo where
  excValue : String
  excTraceback : String
deriving DecidableEq, Repr

/-- Exceptions the embedded code can raise. -/
inductive PyErr where
  /-- exc_info item 1 re-raised with with_traceback(exc_info item 2):
  the same exception object, with the carried traceback attached. -/
  | carried (excValue excTraceback : String)
  /-- TypeError from subscripting exc_info when it is None
  (line raise exc_info[1] with response_started true and no exc_info). -/
  | typeErrNoneSubscript
  /-- ValueError: you cannot call start_response a second time without
  exc_info. -/
  | valueErrSecondCall
  /-- ValueError from unpacking status.split into two names when the
  status string holds no space. -/
  | valueErrUnpack
  /-- ValueError from int() on a token that is not a decimal integer. -/
  | valueErrIntParse
  /-- UnicodeEncodeError from encoding a non-ASCII header name or value. -/
  | unicodeEncodeErr
  /-- AttributeError from reading self.response_start when start_response
  was never called. -/
  | attributeErrNoStart
  /-- ValueError: WSGI wrapper received a non-HTTP scope. -/
  | valueErrNonHttpScope
  /-- ValueError: WSGI wrapper received a non-HTTP-request message. -/
  | valueErrNonRequestMsg
deriving DecidableEq, Repr

/-- The captured http.response.start message: status code and the
lower-cased, ASCII-encoded header pairs. -/
structure StartMsg where
  status : Int
  headers : List (String × String)
deriving DecidableEq, Repr

/-- Mutable state of one WsgiToAsgiInstance: the response_started flag and
the response_start attribute (absent until start_response stores it, so
hasattr(self, "response_start") is response_start.isSome). -/
structure InstState where
  response_started : Bool
  response_start : Option StartMsg
deriving DecidableEq, Repr

/-- Split a string at its first space character, as status.split(" ", 1)
does: none when the string holds no space, otherwise the parts before and
after the first space. -/
def splitSp : List Char → Option (List Char × List Char)
  | [] => none
  | ' ' :: rest => some ([], rest)
  | c :: rest =>
    match splitSp rest with
    | some (a, b) => some (c :: a, b)
    | none => none

/-- String form of splitSp. -/
def splitFirstSpace (s : String) : Option (String × String) :=
  (splitSp s.data).map (fun p => (String.mk p.1, String.mk p.2))

/-- Decimal digit value of a character, none for non-digits. -/
def digitVal (c : Char) : Option Nat :=
  if '0' ≤ c ∧ c ≤ '9' then some (c.toNat - 48) else none

/-- Whitespace stripped by Python int() around the literal. -/
def isPyWs (c : Char) : Bool :=
  c = ' ' ∨ c = '\t' ∨ c = '\n' ∨ c = '\r' ∨ c = '\x0b' ∨ c = '\x0c'

/-- Strip leading and trailing whitespace from a character list. -/
def stripWs (cs : List Char) : List Char :=
  ((cs.dropWhile isPyWs).reverse.dropWhile isPyWs).reverse

/-- Digits of a Python int literal after the first digit: plain digits,
with a single underscore allowed only between two digits. -/
def pyIntAux : Nat → List Char → Option Nat
  | acc, [] => some acc
  | _, ['_'] => none
  | acc, '_' :: d :: rest =>
    match digitVal d with
    | some v => pyIntAux (acc * 10 + v) rest
    | none => none
  | acc, c :: rest =>
    match digitVal c with
    | some v => pyIntAux (acc * 10 + v) rest
    | none => none

/-- An unsigned run of digits per Python int(): nonempty, underscores only
between digits. -/
def pyIntDigits : List Char → Option Nat
  | [] => none
  | c :: rest =>
    match digitVal c with
    | some v => pyIntAux v rest
    | none => none

/-- Python int(s) on a string: strip surrounding whitespace, optional
sign, decimal digits (ASCII digits; Python additionally accepts other
Unicode digits, which no claim involves).  none models the ValueError. -/
def pyInt (s : String) : Option Int :=
  match stripWs s.data with
  | '+' :: rest => (pyIntDigits rest).map Int.ofNat
  | '-' :: rest => (pyIntDigits rest).map (fun n => -(n : Int))
  | rest => (pyIntDigits rest).map Int.ofNat

/-- ASCII test used by str.encode with the ascii codec. -/
def isAsciiChar (c : Char) : Bool := c.toNat < 128

/-- Per-character lower casing, matching str.lower on ASCII. -/
def toLowerStr (s : String) : String :=
  String.mk (s.data.map Char.toLower)

/-- One pair of the header list comprehension in start_response:
(name.lower().encode("ascii"), value.encode("ascii")).  none models the
UnicodeEncodeError on a non-ASCII character; the encoded bytes are kept
in decoded (ASCII equals latin1) form. -/
def encodeHeaderPair (p : String × String) : Option (String × String) :=
  let low := toLowerStr p.1
  if low.data.all isAsciiChar ∧ p.2.data.all isAsciiChar then
    some (low, p.2)
  else
    none

/-- The whole header list comprehension; fails at the first bad pair. -/
def encodeHeaders (hs : List (String × String)) : Option (List (String × String)) :=
  hs.mapM encodeHeaderPair

/-- WsgiToAsgiInstance.start_response.  Returns the new instance state, or
the exception raised.  The state is only updated through the ok result, so
an error leaves the stored start record unchanged. -/
def start_response (st : InstState) (status : String)
    (response_headers : List (String × String)) (exc_info : Option ExcInfo) :
    Except PyErr InstState :=
  if st.response_started then
    .error (match exc_info with
      | some e => .carried e.excValue e.excTraceback
      | none => .typeErrNoneSubscript)
  else if st.response_start.isSome ∧ exc_info = none then
    .error .valueErrSecondCall
  else
    match splitFirstSpace status with
    | none => .error .valueErrUnpack
    | some (tok, _) =>
      match pyInt tok with
      | none => .error .valueErrIntParse
      | some code =>
        match encodeHeaders response_headers with
        | none => .error .unicodeEncodeErr
        | some hs =>
          .ok { st with response_start := some { status := code, headers := hs } }

/-!
The WSGI environ built by WsgiToAsgiInstance.build_environ.
-/

/-- A value stored in the environ dictionary.  Besides strings the code
stores the version tuple (1, 0), the BytesIO streams wsgi.input and
wsgi.errors, and the three capability booleans. -/
inductive EnvVal where
  | str (s : String)
  | vers (a b : Nat)
  | stream (contents : Bytes)
  | flag (b : Bool)
deriving DecidableEq, Repr

/-- The ASGI http scope fields build_environ reads.  query_string arrives
as bytes and is decoded with the ascii codec; headers arrive as byte pairs
and are decoded with latin1; both decodes are modelled as the decoded
strings themselves. -/
structure Scope where
  method : String
  path : String
  queryString : String
  httpVersion : String
  scheme : Option String
  server : Option (String × Nat)
  client : Option (String × Nat)
  headers : List (String × String)

/-- name.upper().replace("-", "_") from build_environ, written per
character: the hyphen is unchanged by upper casing and is then replaced,
every other character is upper cased. -/
def upperSnake (name : String) : String :=
  String.mk (name.data.map (fun c => if c = '-' then '_' else c.toUpper))

/-- The environ key one header name is folded into.  Note the comparison
is against the exact decoded name: the code does not lower-case it first. -/
def targetKey (name : String) : String :=
  if name = "content-length" then "CONTENT_LENGTH"
  else if name = "content-type" then "CONTENT_TYPE"
  else "HTTP_" ++ upperSnake name

/-- The environ dictionary before header folding: the literal dictionary
of build_environ plus the SERVER_NAME / SERVER_PORT / REMOTE_ADDR entries,
as a lookup function. -/
def baseEnviron (sc : Scope) (body : Bytes) : String → Option EnvVal :=
  fun k =>
    if k = "REQUEST_METHOD" then some (.str sc.method)
    else if k = "SCRIPT_NAME" then some (.str "")
    else if k = "PATH_INFO" then some (.str sc.path)
    else if k = "QUERY_STRING" then some (.str sc.queryString)
    else if k = "SERVER_PROTOCOL" then some (.str ("HTTP/" ++ sc.httpVersion))
    else if k = "wsgi.version" then some (.vers 1 0)
    else if k = "wsgi.url_scheme" then some (.str (sc.scheme.getD "http"))
    else if k = "wsgi.input" then some (.stream body)
    else if k = "wsgi.errors" then some (.stream [])
    else if k = "wsgi.multithread" then some (.flag true)
    else if k = "wsgi.multiprocess" then some (.flag true)
    else if k = "wsgi.run_once" then some (.flag false)
    else if k = "SERVER_NAME" then
      some (.str (match sc.server with | some sv => sv.1 | none => "localhost"))
    else if k = "SERVER_PORT" then
      some (.str (match sc.server with | some sv => toString sv.2 | none => "80"))
    else if k = "REMOTE_ADDR" then
      match sc.client with | some cl => some (.str cl.1) | none => none
    else none

/-- The string held at an environ entry.  Header folding only ever reads
entries it wrote itself or that are absent, all of which are .str values;
on any other value Python would raise a TypeError from the concatenation,
and we prove below that the base environ is none at every fold target. -/
def envStr : EnvVal → String
  | .str s => s
  | _ => ""

/-- The loop body of the header fold: compute the corrected name, join
onto an existing value with a comma, store. -/
def foldHeader (env : String → Option EnvVal) (h : String × String) :
    String → Option EnvVal :=
  let corrected := targetKey h.1
  let value :=
    match env corrected with
    | some old => envStr old ++ "," ++ h.2
    | none => h.2
  fun k => if k = corrected then some (.str value) else env k

/-- The whole header loop of build_environ. -/
def foldHeaders (env : String → Option EnvVal) (hs : List (String × String)) :
    String → Option EnvVal :=
  hs.foldl foldHeader env

/-- WsgiToAsgiInstance.build_environ: the base dictionary, then the header
fold over scope.headers. -/
def build_environ (sc : Scope) (body : Bytes) : String → Option EnvVal :=
  foldHeaders (baseEnviron sc body) sc.headers

/-- The decoded values of the headers that fold into key k, in order of
arrival. -/
def headerValuesFor (k : String) (hs : List (String × String)) : List String :=
  (hs.filter (fun h => targetKey h.1 = k)).map Prod.snd

/-- Values joined by commas, first arrival first. -/
def commaJoin : List String → String
  | [] => ""
  | [v] => v
  | v :: vs => v ++ "," ++ commaJoin vs

/-!
The output loop run_wsgi_app, and the instance entry point.

The WSGI application is opaque: all the adapter observes of it is the
interleaved sequence of start_response calls it makes and body chunks it
yields, so we model one application run as that event trace.  An exception
raised inside start_response propagates through the generator and out of
the for loop, aborting the run with the outbound messages sent so far.
-/

/-- One observable action of the WSGI application while it is iterated. -/
inductive WsgiEvent where
  | callStart (status : String) (headers : List (String × String))
      (excInfo : Option ExcInfo)
  | yieldChunk (body : Bytes)
deriving Repr

/-- Outbound ASGI messages.  The final message the code sends is the bare
dictionary with type http.response.body; by the ASGI defaults that is an
empty body with more_body false, which is how we record it. -/
inductive OutMsg where
  | responseStart (status : Int) (headers : List (String × String))
  | responseBody (body : Bytes) (moreBody : Bool)
deriving DecidableEq, Repr

/-- Is this message the http.response.start message. -/
def isStart : OutMsg → Bool
  | .responseStart _ _ => true
  | _ => false

/-- Is this message an http.response.body message. -/
def isBody : OutMsg → Bool
  | .responseBody _ _ => true
  | _ => false

/-- One step of the for loop in run_wsgi_app: a start_response call made
by the application, or the loop body run on one yielded chunk.  On a chunk
with response_started still false, the code sets the flag, sends the
captured response_start (raising AttributeError if it was never captured)
and then sends the chunk with more_body true. -/
def stepEvent (st : InstState) : WsgiEvent → List OutMsg × Except PyErr InstState
  | .callStart status hdrs einfo => ([], start_response st status hdrs einfo)
  | .yieldChunk c =>
    if st.response_started then
      ([.responseBody c true], .ok st)
    else
      match st.response_start with
      | none => ([], .error .attributeErrNoStart)
      | some rs =>
        ([.responseStart rs.status rs.headers, .responseBody c true],
          .ok { st with response_started := true })

/-- The for loop over the application events: outbound messages already
sent stay sent when a step raises. -/
def runLoop (st : InstState) : List WsgiEvent → List OutMsg × Except PyErr InstState
  | [] => ([], .ok st)
  | ev :: rest =>
    match stepEvent st ev with
    | (out, .ok st1) =>
      match runLoop st1 rest with
      | (out2, r) => (out ++ out2, r)
    | (out, .error e) => (out, .error e)

/-- WsgiToAsgiInstance.run_wsgi_app on one application event trace: run
the loop; afterwards, if the response never started, send the captured
start message (AttributeError if none was captured); finally send the
terminal body message. -/
def run_wsgi_app (events : List WsgiEvent) : List OutMsg × Except PyErr InstState :=
  match runLoop { response_started := false, response_start := none } events with
  | (out, .error e) => (out, .error e)
  | (out, .ok st) =>
    if st.response_started then
      (out ++ [.responseBody [] false], .ok st)
    else
      match st.response_start with
      | none => (out, .error .attributeErrNoStart)
      | some rs =>
        (out ++ [.responseStart rs.status rs.headers, .responseBody [] false],
          .ok { st with response_started := true })

/-- WsgiToAsgiInstance.__call__: reject a non-http scope before reading
any message, reject a first inbound message that is not an http.request,
then run the application. -/
def instanceCall (scopeType : String) (firstMsgType : String)
    (events : List WsgiEvent) : List OutMsg × Except PyErr InstState :=
  if scopeType ≠ "http" then ([], .error .valueErrNonHttpScope)
  else if firstMsgType ≠ "http.request" then ([], .error .valueErrNonRequestMsg)
  else run_wsgi_app events

lemma httpHead (u : String) : ("HTTP_" ++ u).data.head? = some 'H' := rfl

lemma httpNe (u t : String) (h : t.data.head? ≠ some 'H') : ("HTTP_" ++ u) ≠ t :=
  fun he => h (he ▸ httpHead u)

lemma base_httpKey (sc : Scope) (body : Bytes) (u : String) :
    baseEnviron sc body ("HTTP_" ++ u) = none := by
  unfold baseEnviron
  rw [if_neg (httpNe u _ (by decide)), if_neg (httpNe u _ (by decide)),
    if_neg (httpNe u _ (by decide)), if_neg (httpNe u _ (by decide)),
    if_neg (httpNe u _ (by decide)), if_neg (httpNe u _ (by decide)),
    if_neg (httpNe u _ (by decide)), if_neg (httpNe u _ (by decide)),
    if_neg (httpNe u _ (by decide)), if_neg (httpNe u _ (by decide)),
    if_neg (httpNe u _ (by decide)), if_neg (httpNe u _ (by decide)),
    if_neg (httpNe u _ (by decide)), if_neg (httpNe u _ (by decide)),
    if_neg (httpNe u _ (by decide))]

lemma baseNoneAtTarget (sc : Scope) (body : Bytes) (name : String) :
    baseEnviron sc body (targetKey name) = none := by
  unfold targetKey
  by_cases h1 : name = "content-length"
  · simp only [h1, if_pos]; rfl
  · by_cases h2 : name = "content-type"
    · simp only [h1, h2, if_neg, if_pos]; rfl
    · simp only [h1, h2, if_neg, ite_false]
      exact base_httpKey sc body (upperSnake name)

lemma targetKeyNe (name t : String) (h1 : t.data.head? ≠ some 'H')
    (h2 : "CONTENT_LENGTH" ≠ t) (h3 : "CONTENT_TYPE" ≠ t) :
    targetKey name ≠ t := by
  unfold targetKey
  by_cases e1 : name = "content-length"
  · simpa [e1] using h2
  · by_cases e2 : name = "content-type"
    · simp [e1, e2]; exact h3
    · simp only [e1, e2, ite_false]
      exact httpNe _ _ h1

lemma foldHeaders_of_ne (hs : List (String × String)) (env : String → Option EnvVal)
    (k : String) (h : ∀ p ∈ hs, targetKey p.1 ≠ k) :
    foldHeaders env hs k = env k := by
  induction hs generalizing env with
  | nil => rfl
  | cons p t ih =>
    have hp : targetKey p.1 ≠ k := h p (List.mem_cons_self p t)
    have ht : ∀ q ∈ t, targetKey q.1 ≠ k := fun q hq => h q (List.mem_cons_of_mem p hq)
    show foldHeaders (foldHeader env p) t k = env k
    rw [ih (foldHeader env p) ht]
    simp only [foldHeader]
    rw [if_neg (fun he => hp he.symm)]

lemma foldHeaders_some_str (hs : List (String × String)) (env : String → Option EnvVal)
    (k : String) (s : String) (h0 : env k = some (.str s)) :
    foldHeaders env hs k = some (.str (commaJoin (s :: headerValuesFor k hs))) := by
  induction hs generalizing env s with
  | nil => simpa [foldHeaders, headerValuesFor, commaJoin] using h0
  | cons p t ih =>
    by_cases hp : targetKey p.1 = k
    · have henv : (foldHeader env p) k = some (.str (s ++ "," ++ p.2)) := by
        simp only [foldHeader, hp, h0, envStr]
        simp
      have := ih (foldHeader env p) (s ++ "," ++ p.2) henv
      show foldHeaders (foldHeader env p) t k = _
      rw [this]
      have hv : headerValuesFor k (p :: t) = p.2 :: headerValuesFor k t := by
        simp [headerValuesFor, hp]
      rw [hv]
      congr 2
      cases hvs : headerValuesFor k t with
      | nil => simp [commaJoin]
      | cons a l => simp [commaJoin, String.append_assoc]
    · have henv : (foldHeader env p) k = some (.str s) := by
        simp only [foldHeader]
        rw [if_neg (fun he => hp he.symm)]
        exact h0
      have := ih (foldHeader env p) s henv
      show foldHeaders (foldHeader env p) t k = _
      rw [this]
      have hv : headerValuesFor k (p :: t) = headerValuesFor k t := by
        simp [headerValuesFor, hp]
      rw [hv]

lemma foldHeaders_none (hs : List (String × String)) (env : String → Option EnvVal)
    (k : String) (h0 : env k = none) (hne : headerValuesFor k hs ≠ []) :
    foldHeaders env hs k = some (.str (commaJoin (headerValuesFor k hs))) := by
  induction hs generalizing env with
  | nil => exact absurd rfl hne
  | cons p t ih =>
    by_cases hp : targetKey p.1 = k
    · have henv : (foldHeader env p) k = some (.str p.2) := by
        simp only [foldHeader, hp, h0]
        simp
      have := foldHeaders_some_str t (foldHeader env p) k p.2 henv
      show foldHeaders (foldHeader env p) t k = _
      rw [this]
      have hv : headerValuesFor k (p :: t) = p.2 :: headerValuesFor k t := by
        simp [headerValuesFor, hp]
      rw [hv]
    · have henv : (foldHeader env p) k = none := by
        simp only [foldHeader]
        rw [if_neg (fun he => hp he.symm)]
        exact h0
      have hv : headerValuesFor k (p :: t) = headerValuesFor k t := by
        simp [headerValuesFor, hp]
      have hne2 : headerValuesFor k t ≠ [] := by rw [hv] at hne; exact hne
      show foldHeaders (foldHeader env p) t k = _
      rw [ih (foldHeader env p) henv hne2, hv]

lemma start_response_flag (st : InstState) (status : String)
    (hdrs : List (String × String)) (einfo : Option ExcInfo) (st1 : InstState)
    (h : start_response st status hdrs einfo = .ok st1) :
    st1.response_started = st.response_started := by
  unfold start_response at h
  by_cases h1 : st.response_started
  · simp [h1] at h
  · simp only [h1, if_false, Bool.false_eq_true] at h
    split at h
    · exact absurd h (by simp)
    · split at h
      · exact absurd h (by simp)
      · split at h
        · exact absurd h (by simp)
        · split at h
          · exact absurd h (by simp)
          · cases h
            simp [h1]

lemma runLoop_started (cs : List Bytes) (st : InstState)
    (h : st.response_started = true) :
    runLoop st (cs.map WsgiEvent.yieldChunk) =
      (cs.map (fun c => OutMsg.responseBody c true), .ok st) := by
  induction cs with
  | nil => rfl
  | cons c t ih =>
    simp only [List.map_cons, runLoop, stepEvent, h, if_true]
    rw [ih]
    simp

lemma runLoop_call_ok (st st1 : InstState) (status : String)
    (hdrs : List (String × String)) (einfo : Option ExcInfo)
    (rest : List WsgiEvent) (h : start_response st status hdrs einfo = .ok st1) :
    runLoop st (.callStart status hdrs einfo :: rest) = runLoop st1 rest := by
  cases hrl : runLoop st1 rest with
  | mk out2 r => simp [runLoop, stepEvent, h, hrl]

lemma runLoop_call_err (st : InstState) (status : String)
    (hdrs : List (String × String)) (einfo : Option ExcInfo)
    (rest : List WsgiEvent) (e : PyErr)
    (h : start_response st status hdrs einfo = .error e) :
    runLoop st (.callStart status hdrs einfo :: rest) = ([], .error e) := by
  simp [runLoop, stepEvent, h]

lemma runLoop_yield_started (srs : Option StartMsg) (c : Bytes)
    (rest : List WsgiEvent) :
    runLoop ⟨true, srs⟩ (.yieldChunk c :: rest) =
      (.responseBody c true :: (runLoop ⟨true, srs⟩ rest).1,
        (runLoop ⟨true, srs⟩ rest).2) := by
  cases hrl : runLoop ⟨true, srs⟩ rest with
  | mk out2 r => simp [runLoop, stepEvent, hrl]

lemma runLoop_yield_nostart (c : Bytes) (rest : List WsgiEvent) :
    runLoop ⟨false, none⟩ (.yieldChunk c :: rest) =
      ([], .error .attributeErrNoStart) := by
  simp [runLoop, stepEvent]

lemma runLoop_yield_unstarted (rs : StartMsg) (c : Bytes) (rest : List WsgiEvent) :
    runLoop ⟨false, some rs⟩ (.yieldChunk c :: rest) =
      (.responseStart rs.status rs.headers :: .responseBody c true ::
          (runLoop ⟨true, some rs⟩ rest).1,
        (runLoop ⟨true, some rs⟩ rest).2) := by
  cases hrl : runLoop ⟨true, some rs⟩ rest with
  | mk out2 r => simp [runLoop, stepEvent, hrl]

lemma loop_inv (events : List WsgiEvent) (st : InstState) :
    (st.response_started = true →
      ((runLoop st events).1.all isBody = true) ∧
      (∀ st1, (runLoop st events).2 = .ok st1 → st1.response_started = true))
    ∧ (st.response_started = false →
      ((runLoop st events).1 = [] ∧
        ∀ st1, (runLoop st events).2 = .ok st1 → st1.response_started = false)
      ∨ (∃ s h rest, (runLoop st events).1 = .responseStart s h :: rest ∧
          rest.all isBody = true ∧
          ∀ st1, (runLoop st events).2 = .ok st1 → st1.response_started = true)) := by
  induction events generalizing st with
  | nil =>
    constructor
    · intro h
      exact ⟨rfl, fun st1 he => by cases he; exact h⟩
    · intro h
      exact Or.inl ⟨rfl, fun st1 he => by cases he; exact h⟩
  | cons ev rest ih =>
    obtain ⟨sf, srs⟩ := st
    cases ev with
    | callStart status hdrs einfo =>
      cases hsr : start_response ⟨sf, srs⟩ status hdrs einfo with
      | error e =>
        rw [runLoop_call_err _ status hdrs einfo rest e hsr]
        constructor
        · intro _
          exact ⟨rfl, fun st1 he => by cases he⟩
        · intro _
          exact Or.inl ⟨rfl, fun st1 he => by cases he⟩
      | ok st1 =>
        have hflag := start_response_flag ⟨sf, srs⟩ status hdrs einfo st1 hsr
        rw [runLoop_call_ok _ st1 status hdrs einfo rest hsr]
        constructor
        · intro h
          exact (ih st1).1 (by rw [hflag]; exact h)
        · intro h
          exact (ih st1).2 (by rw [hflag]; exact h)
    | yieldChunk c =>
      constructor
      · intro h
        cases h
        rw [runLoop_yield_started srs c rest]
        have := (ih ⟨true, srs⟩).1 rfl
        refine ⟨?_, this.2⟩
        simp [isBody, this.1]
      · intro h
        cases h
        cases srs with
        | none =>
          rw [runLoop_yield_nostart c rest]
          exact Or.inl ⟨rfl, fun st1 he => by cases he⟩
        | some rs =>
          rw [runLoop_yield_unstarted rs c rest]
          have := (ih ⟨true, some rs⟩).1 rfl
          refine Or.inr ⟨rs.status, rs.headers,
            .responseBody c true :: (runLoop ⟨true, some rs⟩ rest).1, rfl, ?_, this.2⟩
          simp [isBody, this.1]

/-- C1: a WSGI application that calls start_response exactly once with
status 200 OK and no headers and then yields chunks c1..cn, run on an http
connection whose first inbound message is an http.request, produces exactly
one response start message with status 200 and empty headers, then each
chunk in production order with more_body true, then the terminal body
message with empty body and more_body false. -/
theorem c1_outbound_sequence (chunks : List Bytes) :
    instanceCall "http" "http.request"
        (.callStart "200 OK" [] none :: chunks.map .yieldChunk) =
      (.responseStart 200 [] ::
          (chunks.map (fun c => OutMsg.responseBody c true) ++ [.responseBody [] false]),
        .ok ⟨true, some ⟨200, []⟩⟩) := by
  have hsr : start_response ⟨false, none⟩ "200 OK" [] none =
      .ok ⟨false, some ⟨200, ([] : List (String × String))⟩⟩ := rfl
  have h0 := runLoop_call_ok ⟨false, none⟩ ⟨false, some ⟨200, []⟩⟩ "200 OK" [] none
    (chunks.map .yieldChunk) hsr
  cases chunks with
  | nil =>
    rfl
  | cons c cs =>
    have h1 := runLoop_yield_unstarted ⟨200, []⟩ c (cs.map .yieldChunk)
    have h2 := runLoop_started cs ⟨true, some ⟨200, []⟩⟩ rfl
    simp only [List.map_cons] at h0
    simp only [instanceCall, run_wsgi_app, List.map_cons]
    rw [h0, h1, h2]
    simp

lemma stepMono (st : InstState) (ev : WsgiEvent) (st1 : InstState)
    (h : st.response_started = true) (hs : (stepEvent st ev).2 = .ok st1) :
    st1.response_started = true := by
  cases ev with
  | callStart status hdrs einfo =>
    simp only [stepEvent] at hs
    rw [start_response_flag st status hdrs einfo st1 hs]
    exact h
  | yieldChunk c =>
    simp only [stepEvent, h, if_true] at hs
    cases hs
    exact h

/-- C5: when the application iterates without ever calling start_response,
run_wsgi_app raises the AttributeError from the missing response_start
attribute instead of sending a start message with an undefined status; no
outbound message at all is emitted. -/
theorem c5_no_start_call_fails (chunks : List Bytes) :
    run_wsgi_app (chunks.map .yieldChunk) = ([], .error .attributeErrNoStart) := by
  cases chunks with
  | nil => rfl
  | cons c cs =>
    have h := runLoop_yield_nostart c (cs.map .yieldChunk)
    simp only [List.map_cons, run_wsgi_app, h]

/-- C3: in every execution of run_wsgi_app, the outbound sequence is
either empty or one response start message followed only by body messages,
so no body message ever precedes the start message and the start message is
sent at most once; in every execution that completes it is sent exactly
once and the final state has response_started true; and no step of the loop
ever takes response_started from true back to false. -/
theorem c3_start_before_body_invariant (events : List WsgiEvent) :
    ((run_wsgi_app events).1 = [] ∨
      ∃ s h rest, (run_wsgi_app events).1 = OutMsg.responseStart s h :: rest ∧
        rest.all isBody = true)
    ∧ (∀ st, (run_wsgi_app events).2 = .ok st →
        (∃ s h rest, (run_wsgi_app events).1 = OutMsg.responseStart s h :: rest ∧
          rest.all isBody = true)
        ∧ st.response_started = true)
    ∧ (∀ st ev st1, st.response_started = true →
        (stepEvent st ev).2 = .ok st1 → st1.response_started = true) := by
  have inv := (loop_inv events ⟨false, none⟩).2 rfl
  cases hrl : runLoop ⟨false, none⟩ events with
  | mk out r =>
    rw [hrl] at inv
    simp only at inv
    cases r with
    | error e =>
      have hw : run_wsgi_app events = (out, .error e) := by
        simp only [run_wsgi_app, hrl]
      rw [hw]
      refine ⟨?_, ?_, stepMono⟩
      · rcases inv with ⟨ho, _⟩ | ⟨s, hh, tl, ho, hb, _⟩
        · exact Or.inl ho
        · exact Or.inr ⟨s, hh, tl, ho, hb⟩
      · intro st he
        cases he
    | ok st0 =>
      cases hf : st0.response_started with
      | true =>
        have hw : run_wsgi_app events = (out ++ [.responseBody [] false], .ok st0) := by
          simp only [run_wsgi_app, hrl, hf, if_true]
        rw [hw]
        rcases inv with ⟨_, hok⟩ | ⟨s, hh, tl, ho, hb, _⟩
        · exact absurd (hok st0 rfl) (by rw [hf]; simp)
        · refine ⟨Or.inr ⟨s, hh, tl ++ [.responseBody [] false], by rw [ho]; simp, ?_⟩,
            ?_, stepMono⟩
          · simp [List.all_append, hb, isBody]
          · intro st he
            cases he
            exact ⟨⟨s, hh, tl ++ [.responseBody [] false], by rw [ho]; simp,
              by simp [List.all_append, hb, isBody]⟩, hf⟩
      | false =>
        cases hrs : st0.response_start with
        | none =>
          have hw : run_wsgi_app events = (out, .error .attributeErrNoStart) := by
            simp only [run_wsgi_app, hrl, hf, hrs]
            simp
          rw [hw]
          refine ⟨?_, ?_, stepMono⟩
          · rcases inv with ⟨ho, _⟩ | ⟨s, hh, tl, ho, hb, _⟩
            · exact Or.inl ho
            · exact Or.inr ⟨s, hh, tl, ho, hb⟩
          · intro st he
            cases he
        | some rs =>
          rcases inv with ⟨ho, _⟩ | ⟨s, hh, tl, ho, hb, hok⟩
          · have hw : run_wsgi_app events =
                ([.responseStart rs.status rs.headers, .responseBody [] false],
                  .ok { st0 with response_started := true }) := by
              simp only [run_wsgi_app, hrl, hf, hrs, ho]
              simp [hrs]
            rw [hw]
            refine ⟨Or.inr ⟨rs.status, rs.headers, [.responseBody [] false], rfl, by simp [isBody]⟩,
              ?_, stepMono⟩
            intro st he
            cases he
            exact ⟨⟨rs.status, rs.headers, [.responseBody [] false], rfl, by simp [isBody]⟩, rfl⟩
          · exact absurd (hok st0 rfl) (by rw [hf]; simp)

/-- C6: calling start_response with exc_info after the response start
message has been sent re-raises exactly the carried exception object with
the carried traceback attached, and sends no outbound message. -/
theorem c6_reraise_after_started (st : InstState) (status : String) (hdrs : List (String × String))
    (e : ExcInfo) (h : st.response_started = true) :
    stepEvent st (.callStart status hdrs (some e)) =
      ([], .error (.carried e.excValue e.excTraceback)) := by
  simp only [stepEvent, start_response, h, if_true]

/-- C7: calling start_response without exc_info when a start record is
already captured but the response has not started fails with the usage
ValueError; the state is returned only through the ok result, so the
previously captured record is left unchanged. -/
theorem c7_second_call_without_exc_info (st : InstState) (status : String) (hdrs : List (String × String))
    (rs : StartMsg) (h1 : st.response_started = false) (h2 : st.response_start = some rs) :
    start_response st status hdrs none = .error .valueErrSecondCall := by
  simp [start_response, h1, h2]

/-- C9: every start_response call made after response_started is true
raises and never returns normally; with exc_info it re-raises the carried
exception, and without exc_info it raises the TypeError from subscripting
None, which is distinct from the usage-error ValueError branch. -/
theorem c9_started_always_raises (st : InstState) (status : String) (hdrs : List (String × String))
    (einfo : Option ExcInfo) (h : st.response_started = true) :
    start_response st status hdrs einfo =
      .error (match einfo with
        | some e => .carried e.excValue e.excTraceback
        | none => .typeErrNoneSubscript)
    ∧ PyErr.typeErrNoneSubscript ≠ PyErr.valueErrSecondCall := by
  refine ⟨?_, by decide⟩
  simp only [start_response, h, if_true]

/-- C10: start_response stores a start record only when the status string
holds at least one space and its leading token parses as an integer, and
the stored status is that integer; whenever the status has no space, or its
leading token does not parse, the call raises and no record is stored. -/
theorem c10_status_capture_condition :
    (∀ (st : InstState) (status : String) (hdrs : List (String × String))
        (einfo : Option ExcInfo) (st1 : InstState),
      start_response st status hdrs einfo = .ok st1 →
      ∃ tok rest n, splitFirstSpace status = some (tok, rest) ∧ pyInt tok = some n ∧
        ∃ hs, st1.response_start = some ⟨n, hs⟩)
    ∧ (∀ (st : InstState) (status : String) (hdrs : List (String × String))
        (einfo : Option ExcInfo),
      (splitFirstSpace status = none ∨
        ∀ tok rest, splitFirstSpace status = some (tok, rest) → pyInt tok = none) →
      ∃ e, start_response st status hdrs einfo = .error e) := by
  constructor
  · intro st status hdrs einfo st1 hok
    by_cases hst : st.response_started
    · simp [start_response, hst] at hok
    · by_cases hsc : st.response_start.isSome ∧ einfo = none
      · simp [start_response, hst, hsc] at hok
      · cases hsp : splitFirstSpace status with
        | none => simp [start_response, hst, hsc, hsp] at hok
        | some pr =>
          obtain ⟨tok, rest⟩ := pr
          cases hpi : pyInt tok with
          | none => simp [start_response, hst, hsc, hsp, hpi] at hok
          | some n =>
            cases henc : encodeHeaders hdrs with
            | none => simp [start_response, hst, hsc, hsp, hpi, henc] at hok
            | some hs =>
              refine ⟨tok, rest, n, rfl, hpi, hs, ?_⟩
              simp [start_response, hst, hsc, hsp, hpi, henc] at hok
              rw [← hok]
  · intro st status hdrs einfo hbad
    by_cases hst : st.response_started
    · refine ⟨match einfo with
        | some e => .carried e.excValue e.excTraceback
        | none => .typeErrNoneSubscript, ?_⟩
      simp [start_response, hst]
    · by_cases hsc : st.response_start.isSome ∧ einfo = none
      · exact ⟨.valueErrSecondCall, by simp [start_response, hst, hsc]⟩
      · cases hsp : splitFirstSpace status with
        | none => exact ⟨.valueErrUnpack, by simp [start_response, hst, hsc, hsp]⟩
        | some pr =>
          obtain ⟨tok, rest⟩ := pr
          rcases hbad with hnone | hall
          · rw [hsp] at hnone
            cases hnone
          · have hpi := hall tok rest hsp
            exact ⟨.valueErrIntParse, by simp [start_response, hst, hsc, hsp, hpi]⟩

/-- C4: whenever at least one header of the list folds into the key k (in
particular whenever two or more do), build_environ maps k to the decoded
values of all headers folding into k joined by commas in order of arrival,
first occurrence first. -/
theorem c4_duplicate_header_join (sc : Scope) (body : Bytes) (k : String)
    (hne : headerValuesFor k sc.headers ≠ []) :
    build_environ sc body k = some (.str (commaJoin (headerValuesFor k sc.headers))) := by
  have hf : sc.headers.filter (fun h => targetKey h.1 = k) ≠ [] := by
    intro hc
    apply hne
    simp [headerValuesFor, hc]
  obtain ⟨p, hp⟩ := List.exists_mem_of_ne_nil _ hf
  have hpk : targetKey p.1 = k := by
    have := List.of_mem_filter hp
    simpa using this
  have hbase : baseEnviron sc body k = none := by
    rw [← hpk]
    exact baseNoneAtTarget sc body p.1
  exact foldHeaders_none sc.headers (baseEnviron sc body) k hbase hne

/-- C8 amended: the method, path, ASCII-decoded query string and scheme
are copied directly into the environ, but the protocol entry is the
version string with the literal text HTTP/ prepended, not the version
string copied unchanged. -/
theorem c8_direct_copies (sc : Scope) (body : Bytes) :
    build_environ sc body "SERVER_PROTOCOL" = some (.str ("HTTP/" ++ sc.httpVersion))
    ∧ build_environ sc body "REQUEST_METHOD" = some (.str sc.method)
    ∧ build_environ sc body "PATH_INFO" = some (.str sc.path)
    ∧ build_environ sc body "QUERY_STRING" = some (.str sc.queryString)
    ∧ build_environ sc body "wsgi.url_scheme" = some (.str (sc.scheme.getD "http")) := by
  refine ⟨?_, ?_, ?_, ?_, ?_⟩ <;>
  · rw [build_environ,
      foldHeaders_of_ne _ _ _ (fun p _ => targetKeyNe p.1 _ (by decide) (by decide) (by decide))]
    rfl

/-- C8 counterexample: for a scope with http version 1.1, SERVER_PROTOCOL
is HTTP/1.1, not the directly copied 1.1 the claim requires. -/
theorem c8_protocol_counterexample :
    build_environ ⟨"GET", "/", "", "1.1", none, none, none, []⟩ [] "SERVER_PROTOCOL" ≠
      some (.str "1.1")
    ∧ build_environ ⟨"GET", "/", "", "1.1", none, none, none, []⟩ [] "SERVER_PROTOCOL" =
      some (.str "HTTP/1.1") := by
  decide

/-- C2 counterexample: a header that arrives with the mixed-case name
Content-Length is folded to HTTP_CONTENT_LENGTH and CONTENT_LENGTH is
absent, refuting the claim that the mapping is independent of the letter
case in which the name arrives. -/
theorem c2_mixed_case_counterexample :
    build_environ ⟨"GET", "/", "", "1.1", none, none, none, [("Content-Length", "5")]⟩ []
      "CONTENT_LENGTH" = none
    ∧ build_environ ⟨"GET", "/", "", "1.1", none, none, none, [("Content-Length", "5")]⟩ []
      "HTTP_CONTENT_LENGTH" = some (.str "5") := by
  decide

/-- C2 amended: a header pair is mapped to CONTENT_LENGTH or CONTENT_TYPE
only when its decoded name is exactly the lowercase content-length or
content-type; any other name, including mixed-case spellings of those two,
maps to HTTP_ followed by the name uppercased with every hyphen replaced
by an underscore. -/
theorem c2_exact_name_folding (sc : Scope) (body : Bytes) (name value : String)
    (hh : sc.headers = [(name, value)]) :
    (name = "content-length" →
      build_environ sc body "CONTENT_LENGTH" = some (.str value)
      ∧ build_environ sc body "HTTP_CONTENT_LENGTH" = none)
    ∧ (name = "content-type" →
      build_environ sc body "CONTENT_TYPE" = some (.str value)
      ∧ build_environ sc body "HTTP_CONTENT_TYPE" = none)
    ∧ (name ≠ "content-length" → name ≠ "content-type" →
      build_environ sc body ("HTTP_" ++ upperSnake name) = some (.str value)) := by
  refine ⟨?_, ?_, ?_⟩
  · intro h1
    subst h1
    constructor
    · rw [build_environ, hh]
      show foldHeader (baseEnviron sc body) ("content-length", value) "CONTENT_LENGTH" = _
      simp [foldHeader, targetKey, baseEnviron]
    · rw [build_environ, hh]
      show foldHeader (baseEnviron sc body) ("content-length", value) "HTTP_CONTENT_LENGTH" = _
      simp [foldHeader, targetKey, baseEnviron]
  · intro h1
    subst h1
    constructor
    · rw [build_environ, hh]
      show foldHeader (baseEnviron sc body) ("content-type", value) "CONTENT_TYPE" = _
      simp [foldHeader, targetKey, baseEnviron]
    · rw [build_environ, hh]
      show foldHeader (baseEnviron sc body) ("content-type", value) "HTTP_CONTENT_TYPE" = _
      simp [foldHeader, targetKey, baseEnviron]
  · intro h1 h2
    have htk : targetKey name = "HTTP_" ++ upperSnake name := by
      simp [targetKey, h1, h2]
    have hbase : baseEnviron sc body ("HTTP_" ++ upperSnake name) = none := by
      rw [← htk]
      exact baseNoneAtTarget sc body name
    rw [build_environ, hh]
    show foldHeader (baseEnviron sc body) (name, value) ("HTTP_" ++ upperSnake name) = _
    simp [foldHeader, htk, hbase]


/-- Witness for C2: a header named exactly content-length lands in
CONTENT_LENGTH and not in HTTP_CONTENT_LENGTH. -/
theorem c2_exact_name_folding_witness :
    build_environ ⟨"GET", "/", "", "1.1", none, none, none, [("content-length", "7")]⟩ []
      "CONTENT_LENGTH" = some (.str "7")
    ∧ build_environ ⟨"GET", "/", "", "1.1", none, none, none, [("content-length", "7")]⟩ []
      "HTTP_CONTENT_LENGTH" = none :=
  (c2_exact_name_folding
    ⟨"GET", "/", "", "1.1", none, none, none, [("content-length", "7")]⟩ []
    "content-length" "7" rfl).1 rfl

/-- Witness for C3 at a concrete run that completes. -/
theorem c3_start_before_body_invariant_witness :
    (∃ s h rest, (run_wsgi_app [WsgiEvent.callStart "200 OK" [] none]).1 =
        OutMsg.responseStart s h :: rest ∧ rest.all isBody = true)
    ∧ (⟨true, some ⟨200, []⟩⟩ : InstState).response_started = true :=
  (c3_start_before_body_invariant [WsgiEvent.callStart "200 OK" [] none]).2.1
    ⟨true, some ⟨200, []⟩⟩ rfl

/-- Witness for C4: two X-Foo headers are joined into a,b. -/
theorem c4_duplicate_header_join_witness :
    build_environ ⟨"GET", "/", "", "1.1", none, none, none, [("X-Foo", "a"), ("X-Foo", "b")]⟩ []
      "HTTP_X_FOO" = some (.str "a,b") := by
  have h := c4_duplicate_header_join
    ⟨"GET", "/", "", "1.1", none, none, none, [("X-Foo", "a"), ("X-Foo", "b")]⟩ []
    "HTTP_X_FOO" (by decide)
  rw [h]
  decide

/-- Witness for C6 at a concrete started state and exception. -/
theorem c6_reraise_after_started_witness :
    stepEvent ⟨true, none⟩ (.callStart "500 Oops" [] (some ⟨"boom", "tb"⟩)) =
      ([], .error (.carried "boom" "tb")) :=
  c6_reraise_after_started ⟨true, none⟩ "500 Oops" [] ⟨"boom", "tb"⟩ rfl

/-- Witness for C7 at a concrete captured-but-unsent state. -/
theorem c7_second_call_without_exc_info_witness :
    start_response ⟨false, some ⟨200, []⟩⟩ "500 Oops" [] none =
      .error .valueErrSecondCall :=
  c7_second_call_without_exc_info ⟨false, some ⟨200, []⟩⟩ "500 Oops" [] ⟨200, []⟩ rfl rfl

/-- Witness for C9 at a concrete started state with no exc_info. -/
theorem c9_started_always_raises_witness :
    start_response ⟨true, none⟩ "200 OK" [] none = .error .typeErrNoneSubscript
    ∧ PyErr.typeErrNoneSubscript ≠ PyErr.valueErrSecondCall :=
  c9_started_always_raises ⟨true, none⟩ "200 OK" [] none rfl

/-- Witness for C10 at a concrete spaceless status string. -/
theorem c10_status_capture_condition_witness :
    ∃ e, start_response ⟨false, none⟩ "banana" [] none = .error e :=
  c10_status_capture_condition.2 ⟨false, none⟩ "banana" [] none (Or.inl (by decide))
